import Mathlib

/-!
Verification development for the calendar-grid core of
`@umituz/react-native-timezone` (src/infrastructure/services/TimezoneService.ts
and the CalendarManager in src/index.ts).

The TypeScript code performs all of its calendar arithmetic through the
JavaScript `Date` type, constructed with local-calendar fields
(`new Date(year, month, day)`).  The model below embeds exactly that
semantics (ECMA-262 `MakeDay` / `MakeDate`):

* a `Date` value carries a civil (proleptic Gregorian) date — year,
  month 0–11, day-of-month — together with a time of day in milliseconds;
  this mirrors a JS `Date` viewed through its local accessors
  (`getFullYear`, `getMonth`, `getDate`, `getDay`, `getHours`, ...), which
  is the only way the repository's code ever looks at a `Date`;
* the constructor normalizes an out-of-range month argument by rolling
  whole years (`ym = y + floor(m / 12)`, `mn = m mod 12`) and an
  out-of-range day argument by rolling across month boundaries, exactly as
  `MakeDay` does via the day-number arithmetic;
* the constructor also reproduces the ECMA-262 two-digit-year rule: a
  `year` argument `yi` with `0 ≤ yi ≤ 99` denotes the year `1900 + yi`;
* JS numbers are idealized as unbounded integers (all quantities involved
  are integral and far below 2^53 in every scenario the spec discusses,
  so the idealization is exact there).

The grid builder reads the ambient clock (`new Date()`) once per call; in
the shallow embedding that single reading is passed explicitly as the
`today` argument, and an `Ambient` record with an explicit clock stream is
used where a claim is about the ambient dependency itself.
-/

/-- Proleptic Gregorian leap-year test, as realized by JS `Date`. -/
def isLeapYear (y : Int) : Bool :=
  (y % 4 == 0 && y % 100 != 0) || y % 400 == 0

/-- Length of month `m` (0-indexed) given the leap flag of its year. -/
def monthLen (m : Nat) (leap : Bool) : Nat :=
  match m, leap with
  | 0, _ => 31
  | 1, true => 29
  | 1, false => 28
  | 2, _ => 31
  | 3, _ => 30
  | 4, _ => 31
  | 5, _ => 30
  | 6, _ => 31
  | 7, _ => 31
  | 8, _ => 30
  | 9, _ => 31
  | 10, _ => 30
  | _, _ => 31

/-- Number of days of year `y` (0-indexed month `m`). -/
def daysInMonth (y : Int) (m : Nat) : Nat :=
  monthLen m (isLeapYear y)

/-- Days of the year strictly before month `m` (0-indexed), common-year base. -/
def monthStartBase (m : Nat) : Nat :=
  match m with
  | 0 => 0
  | 1 => 31
  | 2 => 59
  | 3 => 90
  | 4 => 120
  | 5 => 151
  | 6 => 181
  | 7 => 212
  | 8 => 243
  | 9 => 273
  | 10 => 304
  | _ => 334

/-- Days of the year strictly before month `m`, adjusted for leap years. -/
def monthStart (m : Nat) (leap : Bool) : Nat :=
  monthStartBase m + (if 2 ≤ m ∧ leap = true then 1 else 0)

/-- Number of days from 0000-01-01 to `y`-01-01 in the proleptic Gregorian
calendar (negative when `y < 0`).  `365 y` plus the signed count of leap
years in `[0, y)`; each ceiling `⌈y/k⌉` is `(y + k - 1) / k` with floor
division. -/
def yearStartDays (y : Int) : Int :=
  365 * y + (y + 3) / 4 - (y + 99) / 100 + (y + 399) / 400

/-- Canonical chronological index of a civil date: days since 0000-01-01. -/
def dayNumber (y : Int) (m : Nat) (d : Nat) : Int :=
  yearStartDays y + (monthStart m (isLeapYear y) : Int) + (d : Int) - 1

/-- A JS `Date` seen through its local accessors: a normalized civil date
(`month < 12`, `1 ≤ day ≤ daysInMonth`) plus the time of day in
milliseconds. -/
structure JSDate where
  year : Int
  month : Nat
  day : Nat
  msOfDay : Nat
deriving DecidableEq, Repr

/-- `Date.prototype.getFullYear`. -/
def getFullYear (d : JSDate) : Int := d.year

/-- `Date.prototype.getMonth` (0–11). -/
def getMonth (d : JSDate) : Nat := d.month

/-- `Date.prototype.getDate` (day of month, 1–31). -/
def getDate (d : JSDate) : Nat := d.day

/-- `Date.prototype.getDay`: weekday, 0 = Sunday.  0000-01-01 is a
Saturday (6) in the proleptic Gregorian calendar, so the weekday of a date
is `(dayNumber + 6) mod 7`. -/
def getDay (d : JSDate) : Nat :=
  ((dayNumber d.year d.month d.day + 6) % 7).toNat

/-- Civil predecessor month of `(y, m)`. -/
def prevYM (y : Int) (m : Nat) : Int × Nat :=
  if m = 0 then (y - 1, 11) else (y, m - 1)

/-- Civil successor month of `(y, m)`. -/
def nextYM (y : Int) (m : Nat) : Int × Nat :=
  if m = 11 then (y + 1, 0) else (y, m + 1)

/-- Normalize a day-of-month argument `d : Int` (arbitrary, as accepted by
`MakeDay`) against month `(y, m)` by rolling whole months, fueled for
structural recursion; the fuel passed by `newDate` always suffices.  The
result is the civil date `d - 1` days after the first of month `(y, m)`,
at midnight. -/
def rollDays : Nat → Int → Nat → Int → JSDate
  | 0, y, m, d => ⟨y, m, d.toNat, 0⟩
  | fuel + 1, y, m, d =>
    if d < 1 then
      rollDays fuel (prevYM y m).1 (prevYM y m).2 (d + (daysInMonth (prevYM y m).1 (prevYM y m).2 : Int))
    else if d ≤ (daysInMonth y m : Int) then
      ⟨y, m, d.toNat, 0⟩
    else
      rollDays fuel (nextYM y m).1 (nextYM y m).2 (d - (daysInMonth y m : Int))

/-- ECMA-262 two-digit-year rule of the `Date(year, month, ...)`
constructor: an integral year argument in `0..99` denotes `1900 + year`. -/
def yrOfArg (y : Int) : Int :=
  if 0 ≤ y ∧ y ≤ 99 then 1900 + y else y

/-- `new Date(year, month, day)` (local time), per ECMA-262 `MakeDay`:
apply the two-digit-year rule, roll the month argument into whole years
(`floor` division/modulo by 12), then normalize the day argument. -/
def newDate (year month day : Int) : JSDate :=
  let yr := yrOfArg year
  let ym := yr + month / 12
  let mn := (month % 12).toNat
  rollDays (day.natAbs + 2) ym mn day

/-- `new Date(year, month, day, hours, minutes, seconds)` — as `newDate`,
with the time of day folded in (`MakeDate` of `MakeDay` and `MakeTime`):
whole days of the time value roll the date. -/
def newDateTime (year month day hours minutes seconds : Int) : JSDate :=
  let t : Int := ((hours * 60 + minutes) * 60 + seconds) * 1000
  let base := newDate year month (day + t / 86400000)
  { base with msOfDay := (t % 86400000).toNat }

/-- The next calendar day after a (valid) civil date. -/
def succDay (dt : JSDate) : JSDate :=
  rollDays 2 dt.year dt.month ((dt.day : Int) + 1)

/-- Chronological index of a `JSDate`'s civil date. -/
def dayNum (dt : JSDate) : Int :=
  dayNumber dt.year dt.month dt.day

/-- JS `String(n)` for an integral number. -/
def jsNumToString (n : Int) : String :=
  if n < 0 then "-" ++ Nat.repr n.natAbs else Nat.repr n.toNat

/-- JS `String(n).padStart(2, '0')` for a natural number. -/
def padStart2 (n : Nat) : String :=
  if n < 10 then "0" ++ Nat.repr n else Nat.repr n

/-- A `CalendarDay` record (src/domain/entities/Timezone.ts).  The
`day`/`month`/`year` fields are stored exactly as the TypeScript code
computes them (raw numbers, not re-read from the date). -/
structure CalendarDay where
  date : JSDate
  day : Int
  dayOfWeek : Nat
  month : Int
  year : Int
  isCurrentMonth : Bool
  isToday : Bool
  isoDate : String
deriving DecidableEq, Repr

namespace TimezoneService

/-- `TimezoneService.isSameDay` (TimezoneService.ts lines 198–204):
compare the year, month, and day-of-month components. -/
def isSameDay (date1 date2 : JSDate) : Bool :=
  getFullYear date1 == getFullYear date2 &&
  getMonth date1 == getMonth date2 &&
  getDate date1 == getDate date2

/-- `TimezoneService.formatDateToString` (lines 245–250):
`YYYY-MM-DD` from the local calendar fields, zero-padded. -/
def formatDateToString (date : JSDate) : String :=
  jsNumToString (getFullYear date) ++ "-" ++
  padStart2 (getMonth date + 1) ++ "-" ++
  padStart2 (getDate date)

/-- `TimezoneService.getCalendarDays` (lines 108–181).  The code reads the
ambient clock once (`const today = new Date()`, line 120); that single
reading is the explicit `today` argument here.  Each `for` loop becomes a
map over `List.range` emitting entries in the loop's push order. -/
def getCalendarDays (year month : Int) (today : JSDate) : List CalendarDay :=
  let firstDay := newDate year month 1
  let firstDayOfWeek := getDay firstDay
  let lastDay := newDate year (month + 1) 0
  let lastDayOfMonth := getDate lastDay
  let prevMonth : Int := if month = 0 then 11 else month - 1
  let prevYear : Int := if month = 0 then year - 1 else year
  let prevMonthLastDay := getDate (newDate prevYear (prevMonth + 1) 0)
  -- the loop `for (i = firstDayOfWeek - 1; i >= 0; i--)` pushes, at its
  -- j-th iteration (j = 0, 1, ...), the day `prevMonthLastDay - i` with
  -- `i = firstDayOfWeek - 1 - j`
  let leading := (List.range firstDayOfWeek).map (fun (j : Nat) =>
    let day : Int := (prevMonthLastDay : Int) - ((firstDayOfWeek - 1 - j : Nat) : Int)
    let date := newDate prevYear prevMonth day
    { date := date, day := day, dayOfWeek := getDay date, month := prevMonth,
      year := prevYear, isCurrentMonth := false,
      isToday := isSameDay date today, isoDate := formatDateToString date })
  let current := (List.range lastDayOfMonth).map (fun (k : Nat) =>
    let day : Int := (k : Int) + 1
    let date := newDate year month day
    { date := date, day := day, dayOfWeek := getDay date, month := month,
      year := year, isCurrentMonth := true,
      isToday := isSameDay date today, isoDate := formatDateToString date })
  let leadCur := leading ++ current
  let remainingDays := 42 - leadCur.length
  let nextMonth : Int := if month = 11 then 0 else month + 1
  let nextYear : Int := if month = 11 then year + 1 else year
  let trailing := (List.range remainingDays).map (fun (t : Nat) =>
    let day : Int := (t : Int) + 1
    let date := newDate nextYear nextMonth day
    { date := date, day := day, dayOfWeek := getDay date, month := nextMonth,
      year := nextYear, isCurrentMonth := false,
      isToday := isSameDay date today, isoDate := formatDateToString date })
  leadCur ++ trailing

end TimezoneService

namespace CalendarManager

/-- `CalendarManager.isSameDay` (src/index.ts lines 370–376). -/
def isSameDay (d1 d2 : JSDate) : Bool :=
  getFullYear d1 == getFullYear d2 &&
  getMonth d1 == getMonth d2 &&
  getDate d1 == getDate d2

/-- `CalendarManager.createDay` (src/index.ts lines 352–368): all numeric
fields are re-read from the (normalized) date object. -/
def createDay (date : JSDate) (isCurrentMonth : Bool) (today : JSDate)
    (formatDateFn : JSDate → String) : CalendarDay :=
  { date := date, day := (getDate date : Int), dayOfWeek := getDay date,
    month := (getMonth date : Int), year := getFullYear date,
    isCurrentMonth := isCurrentMonth, isToday := isSameDay date today,
    isoDate := formatDateFn date }

/-- `CalendarManager.getCalendarDays` (src/index.ts lines 308–350), with
the single ambient-clock reading (`const today = new Date()`, line 318)
passed explicitly as `today`. -/
def getCalendarDays (year month : Int) (today : JSDate)
    (formatDateFn : JSDate → String) : List CalendarDay :=
  let firstDay := newDate year month 1
  let firstDayOfWeek := getDay firstDay
  let lastDay := newDate year (month + 1) 0
  let lastDayOfMonth := getDate lastDay
  let prevMonthDate := newDate year month 0
  let prevMonthLastDay := getDate prevMonthDate
  let prevMonth := getMonth prevMonthDate
  let prevYear := getFullYear prevMonthDate
  let leading := (List.range firstDayOfWeek).map (fun (j : Nat) =>
    let day : Int := (prevMonthLastDay : Int) - ((firstDayOfWeek - 1 - j : Nat) : Int)
    createDay (newDate prevYear (prevMonth : Int) day) false today formatDateFn)
  let current := (List.range lastDayOfMonth).map (fun (k : Nat) =>
    createDay (newDate year month ((k : Int) + 1)) true today formatDateFn)
  let leadCur := leading ++ current
  let remainingDays := 42 - leadCur.length
  let nextMonthDate := newDate year (month + 1) 1
  let nextMonth := getMonth nextMonthDate
  let nextYear := getFullYear nextMonthDate
  let trailing := (List.range remainingDays).map (fun (t : Nat) =>
    createDay (newDate nextYear (nextMonth : Int) ((t : Int) + 1)) false today formatDateFn)
  leadCur ++ trailing

/-- The ambient host environment observed by the service: the reading of
the wall clock at each successive `new Date()` call. -/
structure Ambient where
  clock : Nat → JSDate

/-- `CalendarManager.getCalendarDays` as actually invoked: the `today`
value is the first (and only) ambient-clock reading of the call. -/
def getCalendarDaysAmbient (amb : Ambient) (year month : Int)
    (formatDateFn : JSDate → String) : List CalendarDay :=
  let today := amb.clock 0
  getCalendarDays year month today formatDateFn

end CalendarManager

/-- Normal form of one run of the grid: `count` entries in civil month
`(Y, M)` whose `i`-th entry carries the day number `dayOf i`, with the raw
`month`/`year` fields `fMonth`/`fYear` as the TypeScript code stores them. -/
def gridSeg (Y : Int) (M : Nat) (dayOf : Nat → Int) (count : Nat)
    (fMonth fYear : Int) (isCur : Bool) (today : JSDate) : List CalendarDay :=
  (List.range count).map (fun (i : Nat) =>
    let date : JSDate := ⟨Y, M, (dayOf i).toNat, 0⟩
    { date := date, day := dayOf i, dayOfWeek := getDay date, month := fMonth,
      year := fYear, isCurrentMonth := isCur,
      isToday := TimezoneService.isSameDay date today,
      isoDate := TimezoneService.formatDateToString date })

/-- The raw previous-month year chosen by `TimezoneService.getCalendarDays`. -/
def pYearTS (y : Int) (m : Nat) : Int := if m = 0 then y - 1 else y

/-- The raw previous-month index chosen by `TimezoneService.getCalendarDays`. -/
def pMonthTS (m : Nat) : Nat := if m = 0 then 11 else m - 1

/-- The raw next-month year chosen by `TimezoneService.getCalendarDays`. -/
def nYearTS (y : Int) (m : Nat) : Int := if m = 11 then y + 1 else y

/-- The raw next-month index chosen by `TimezoneService.getCalendarDays`. -/
def nMonthTS (m : Nat) : Nat := if m = 11 then 0 else m + 1

/-- Weekday of the first of the requested month (after the constructor's
year reinterpretation). -/
def fdowTS (y : Int) (m : Nat) : Nat := getDay ⟨yrOfArg y, m, 1, 0⟩

/-- Length of the requested month as the code computes it (day 0 of the
following month), i.e. after the constructor's year reinterpretation. -/
def dimCur (y : Int) (m : Nat) : Nat := daysInMonth (yrOfArg y) m

/-- Length of the previous month as the code computes it. -/
def dimPrev (y : Int) (m : Nat) : Nat :=
  daysInMonth (yrOfArg (pYearTS y m)) (pMonthTS m)

-- Sanity checks of the calendar model against known facts.
example : newDate 2024 0 1 = ⟨2024, 0, 1, 0⟩ := by decide
example : getDay (newDate 2024 0 1) = 1 := by decide      -- 2024-01-01 is a Monday
example : getDay (newDate 1970 0 1) = 4 := by decide      -- 1970-01-01 is a Thursday
example : getDay (newDate 2023 11 31) = 0 := by decide    -- 2023-12-31 is a Sunday
example : newDate 2024 12 1 = ⟨2025, 0, 1, 0⟩ := by decide
example : newDate 2024 (-1) 5 = ⟨2023, 11, 5, 0⟩ := by decide
example : newDate 2024 1 0 = ⟨2024, 0, 31, 0⟩ := by decide
example : newDate 2024 2 0 = ⟨2024, 1, 29, 0⟩ := by decide
example : newDate 2023 2 0 = ⟨2023, 1, 28, 0⟩ := by decide
example : newDate 24 0 1 = ⟨1924, 0, 1, 0⟩ := by decide
example : newDate 0 0 1 = ⟨1900, 0, 1, 0⟩ := by decide
example : newDate (-1) 11 31 = ⟨-1, 11, 31, 0⟩ := by decide
example : newDate 2024 0 45 = ⟨2024, 1, 14, 0⟩ := by decide
example : newDateTime 2024 2 10 23 59 59 = ⟨2024, 2, 10, 86399000⟩ := by decide
example : newDateTime 2024 2 10 25 0 0 = ⟨2024, 2, 11, 3600000⟩ := by decide


-- Concrete sanity checks of the grid builder.
example : (TimezoneService.getCalendarDays 2024 0 (newDate 2024 0 15)).length = 42 := by decide
example :
    ((TimezoneService.getCalendarDays 2024 0 (newDate 2024 0 15)).map
      (fun e => (e.year, e.month, e.day))).take 3 =
    [(2023, 11, 31), (2024, 0, 1), (2024, 0, 2)] := by decide
example :
    ((TimezoneService.getCalendarDays 2024 0 (newDate 2024 0 15)).drop 15).head?.map
      (fun e => (e.isToday, e.isoDate)) = some (true, "2024-01-15") := by decide


/-! ### Basic facts about the date model -/

theorem rollDays_valid (fuel : Nat) (y : Int) (m : Nat) (d : Int)
    (h1 : 1 ≤ d) (h2 : d ≤ (daysInMonth y m : Int)) :
    rollDays (fuel + 1) y m d = ⟨y, m, d.toNat, 0⟩ := by
  rw [rollDays]
  rw [if_neg (by omega), if_pos h2]

theorem monthLen_bounds (m : Nat) (b : Bool) :
    28 ≤ monthLen m b ∧ monthLen m b ≤ 31 := by
  unfold monthLen
  split <;> omega

theorem daysInMonth_bounds (y : Int) (m : Nat) :
    28 ≤ daysInMonth y m ∧ daysInMonth y m ≤ 31 :=
  monthLen_bounds m (isLeapYear y)

theorem rollDays_zero (fuel : Nat) (y : Int) (m : Nat) :
    rollDays (fuel + 2) y m 0 =
      ⟨(prevYM y m).1, (prevYM y m).2,
        daysInMonth (prevYM y m).1 (prevYM y m).2, 0⟩ := by
  have hb := daysInMonth_bounds (prevYM y m).1 (prevYM y m).2
  rw [show fuel + 2 = (fuel + 1) + 1 by omega, rollDays]
  rw [if_pos (by omega : (0 : Int) < 1)]
  rw [rollDays_valid fuel _ _ _ (by omega) (by omega)]
  congr 1
  omega

theorem getDay_lt (dt : JSDate) : getDay dt < 7 := by
  unfold getDay
  have h1 := Int.emod_nonneg (dayNumber dt.year dt.month dt.day + 6)
    (by norm_num : (7 : Int) ≠ 0)
  have h2 := Int.emod_lt_of_pos (dayNumber dt.year dt.month dt.day + 6)
    (by norm_num : (0 : Int) < 7)
  omega

theorem getDate_newDate_zero_bounds (y m : Int) :
    28 ≤ getDate (newDate y m 0) ∧ getDate (newDate y m 0) ≤ 31 := by
  unfold newDate getDate
  rw [show (0 : Int).natAbs + 2 = 0 + 2 by rfl, rollDays_zero]
  exact daysInMonth_bounds _ _

/-! ### Total length of the grid -/

/-- The grid has 42 entries for arbitrary integer `year` and `month`
arguments: the leading run has `firstDayOfWeek < 7` entries, the current
run has 28–31 entries, and the trailing run fills up to 42. -/
theorem TimezoneService.length_getCalendarDays (year month : Int) (today : JSDate) :
    (TimezoneService.getCalendarDays year month today).length = 42 := by
  have hF := getDay_lt (newDate year month 1)
  have hC := getDate_newDate_zero_bounds year (month + 1)
  simp only [TimezoneService.getCalendarDays, List.length_append, List.length_map,
    List.length_range]
  omega

/-! ### The entry fields other than `isToday` do not depend on `today` -/

theorem TimezoneService.map_fields_today_irrelevant (year month : Int) (t t' : JSDate) :
    (TimezoneService.getCalendarDays year month t).map
      (fun e => (e.year, e.month, e.isCurrentMonth)) =
    (TimezoneService.getCalendarDays year month t').map
      (fun e => (e.year, e.month, e.isCurrentMonth)) := by
  simp only [TimezoneService.getCalendarDays, List.map_append, List.map_map,
    List.length_append, List.length_map, List.length_range]
  refine congrArg₂ (· ++ ·) (congrArg₂ (· ++ ·) ?_ ?_) ?_ <;>
    exact List.map_congr_left (fun i _ => rfl)

theorem TimezoneService.map_date_today_irrelevant (year month : Int) (t t' : JSDate) :
    (TimezoneService.getCalendarDays year month t).map (fun e => e.date) =
    (TimezoneService.getCalendarDays year month t').map (fun e => e.date) := by
  simp only [TimezoneService.getCalendarDays, List.map_append, List.map_map,
    List.length_append, List.length_map, List.length_range]
  refine congrArg₂ (· ++ ·) (congrArg₂ (· ++ ·) ?_ ?_) ?_ <;>
    exact List.map_congr_left (fun i _ => rfl)

/-! ### Claims -/

/-- Claim C1: for every year and every month in 0–11, `getCalendarDays`
returns exactly 42 `CalendarDay` entries, regardless of month length or
weekday alignment of the first day. -/
theorem grid_always_has_42_entries (year month : Int) (today : JSDate)
    (h0 : 0 ≤ month) (h1 : month ≤ 11) :
    (TimezoneService.getCalendarDays year month today).length = 42 :=
  TimezoneService.length_getCalendarDays year month today

/-- Witness for C1 at `(year, month) = (2024, 1)`. -/
theorem grid_always_has_42_entries_witness :
    (TimezoneService.getCalendarDays 2024 1 (newDate 2024 0 15)).length = 42 :=
  grid_always_has_42_entries 2024 1 (newDate 2024 0 15) (by decide) (by decide)

/-- Claim C6: the concrete grid for `(2024, 0)` with `now = 2024-01-15`:
one leading filler entry (Sunday, December 31, 2023), 31 current-month
entries (January 1–31, 2024), ten trailing filler entries
(February 1–10, 2024); the entry for January 15 is the unique entry with
`isToday = true` and its `isoDate` is `"2024-01-15"`. -/
theorem concrete_grid_january_2024 :
    (TimezoneService.getCalendarDays 2024 0 (newDate 2024 0 15)).length = 42
    ∧ (TimezoneService.getCalendarDays 2024 0 (newDate 2024 0 15)).map
        (fun e => (e.year, e.month, e.day, e.isCurrentMonth)) =
      [((2023 : Int), (11 : Int), (31 : Int), false)]
        ++ (List.range 31).map (fun (k : Nat) => ((2024 : Int), (0 : Int), (k : Int) + 1, true))
        ++ (List.range 10).map (fun (u : Nat) => ((2024 : Int), (1 : Int), (u : Int) + 1, false))
    ∧ ((TimezoneService.getCalendarDays 2024 0 (newDate 2024 0 15)).map
        (fun e => e.dayOfWeek)).head? = some 0
    ∧ (TimezoneService.getCalendarDays 2024 0 (newDate 2024 0 15)).countP
        (fun e => e.isToday) = 1
    ∧ ((TimezoneService.getCalendarDays 2024 0 (newDate 2024 0 15)).drop 15).head?.map
        (fun e => (e.isToday, e.isoDate, e.day, e.month, e.year)) =
      some (true, "2024-01-15", 15, 0, 2024) := by
  refine ⟨by decide, by decide, by decide, by decide, by decide⟩

/-- Claim C7: at the year boundary, for `(2024, 11)` every trailing filler
entry carries `year = 2025`, `month = 0`, and for `(2024, 0)` every
leading filler entry carries `year = 2023`, `month = 11` (stated for an
arbitrary `now`, since those fields do not depend on it). -/
theorem month_rollover_at_year_boundary (now : JSDate) :
    (TimezoneService.getCalendarDays 2024 11 now).map
        (fun e => (e.year, e.month, e.isCurrentMonth)) =
      List.replicate 31 ((2024 : Int), (11 : Int), true)
        ++ List.replicate 11 ((2025 : Int), (0 : Int), false)
    ∧ (TimezoneService.getCalendarDays 2024 0 now).map
        (fun e => (e.year, e.month, e.isCurrentMonth)) =
      [((2023 : Int), (11 : Int), false)]
        ++ List.replicate 31 ((2024 : Int), (0 : Int), true)
        ++ List.replicate 10 ((2024 : Int), (1 : Int), false) := by
  constructor
  · rw [TimezoneService.map_fields_today_irrelevant 2024 11 now (newDate 2024 0 1)]
    decide
  · rw [TimezoneService.map_fields_today_irrelevant 2024 0 now (newDate 2024 0 1)]
    decide

/-- Claim C8: out-of-range month arguments are not rejected: the grid
builder is total and always yields 42 entries for arbitrary integer
`(year, month)`, and the month argument is normalized by rolling into
adjacent years — month 12 of 2024 produces exactly the dates of January
2025, and `new Date(2024, 12, 1)` is January 1, 2025. -/
theorem out_of_range_month_normalized_not_rejected :
    (∀ (year month : Int) (today : JSDate),
      (TimezoneService.getCalendarDays year month today).length = 42)
    ∧ (∀ today : JSDate,
      (TimezoneService.getCalendarDays 2024 12 today).map (fun e => e.date) =
      (TimezoneService.getCalendarDays 2025 0 today).map (fun e => e.date))
    ∧ newDate 2024 12 1 = newDate 2025 0 1 := by
  refine ⟨TimezoneService.length_getCalendarDays, ?_, by decide⟩
  intro t
  rw [TimezoneService.map_date_today_irrelevant 2024 12 t (newDate 2024 0 1),
    TimezoneService.map_date_today_irrelevant 2025 0 t (newDate 2024 0 1)]
  decide

/-- Claim C9: `isSameDay` compares exactly the year, month and
day-of-month components; the time of day is irrelevant.  In particular
`isSameDay(2024-03-10T23:59:59, 2024-03-10T00:00:01)` is `true` and
`isSameDay(2024-03-10T23:59:59, 2024-03-11T00:00:01)` is `false`. -/
theorem isSameDay_components_only :
    (∀ d1 d2 : JSDate, TimezoneService.isSameDay d1 d2 = true ↔
      (getFullYear d1 = getFullYear d2 ∧ getMonth d1 = getMonth d2 ∧
        getDate d1 = getDate d2))
    ∧ (∀ d1 d2 : JSDate, ∀ ms1 ms2 : Nat,
      TimezoneService.isSameDay { d1 with msOfDay := ms1 } { d2 with msOfDay := ms2 } =
        TimezoneService.isSameDay d1 d2)
    ∧ TimezoneService.isSameDay (newDateTime 2024 2 10 23 59 59)
        (newDateTime 2024 2 10 0 0 1) = true
    ∧ TimezoneService.isSameDay (newDateTime 2024 2 10 23 59 59)
        (newDateTime 2024 2 11 0 0 1) = false := by
  refine ⟨?_, fun d1 d2 ms1 ms2 => rfl, by decide, by decide⟩
  intro d1 d2
  simp [TimezoneService.isSameDay, Bool.and_eq_true, beq_iff_eq, and_assoc]

/-- Claim C5, counterexample: the grid builder does read the ambient
clock inside the call (line 318 of src/index.ts, line 120 of
TimezoneService.ts): two calls with identical `(year, month, dateKeyFn)`
arguments but different ambient clocks yield different sequences, so
`now` is not a per-call input and the "no ambient current-time read"
part of the claim is false. -/
theorem ambient_clock_is_observed :
    CalendarManager.getCalendarDaysAmbient ⟨fun _ => newDate 2024 0 15⟩ 2024 0
        TimezoneService.formatDateToString ≠
      CalendarManager.getCalendarDaysAmbient ⟨fun _ => newDate 2024 0 16⟩ 2024 0
        TimezoneService.formatDateToString := by
  decide

/-- Claim C5, amended: the builder reads the ambient clock exactly once
per call (captured before the loops); apart from that single reading and
the injected `dateKeyFn`, no ambient state influences the result, so two
calls with identical `(year, month, dateKeyFn)` whose clocks agree on
that one initial reading yield structurally identical sequences. -/
theorem grid_determined_by_initial_clock_reading
    (amb1 amb2 : CalendarManager.Ambient) (year month : Int)
    (fmt : JSDate → String) (h : amb1.clock 0 = amb2.clock 0) :
    CalendarManager.getCalendarDaysAmbient amb1 year month fmt =
      CalendarManager.getCalendarDaysAmbient amb2 year month fmt := by
  unfold CalendarManager.getCalendarDaysAmbient
  rw [h]

/-- Witness for the amended C5: two ambients that agree at the initial
clock reading but differ later give identical grids. -/
theorem grid_determined_by_initial_clock_reading_witness :
    CalendarManager.getCalendarDaysAmbient ⟨fun _ => newDate 2024 0 15⟩ 2024 0
        TimezoneService.formatDateToString =
      CalendarManager.getCalendarDaysAmbient
        ⟨fun n => if n = 0 then newDate 2024 0 15 else newDate 1999 5 1⟩ 2024 0
        TimezoneService.formatDateToString :=
  grid_determined_by_initial_clock_reading _ _ 2024 0 _ rfl

/-! ### Evaluating `newDate` on the arguments the grid builder uses -/

theorem newDate_valid (y : Int) (M : Nat) (hM : M ≤ 11) (d : Int)
    (h1 : 1 ≤ d) (h2 : d ≤ (daysInMonth (yrOfArg y) M : Int)) :
    newDate y (M : Int) d = ⟨yrOfArg y, M, d.toNat, 0⟩ := by
  have hdiv : ((M : Int)) / 12 = 0 := by omega
  have hmod : ((M : Int)) % 12 = (M : Int) := by omega
  simp only [newDate, hdiv, hmod, add_zero]
  have hN : ((M : Int)).toNat = M := by omega
  rw [hN, show d.natAbs + 2 = (d.natAbs + 1) + 1 from rfl]
  exact rollDays_valid _ _ _ _ h1 h2

theorem newDate_zero (y : Int) (M : Nat) (hM : M ≤ 11) :
    newDate y (M : Int) 0 =
      ⟨(prevYM (yrOfArg y) M).1, (prevYM (yrOfArg y) M).2,
        daysInMonth (prevYM (yrOfArg y) M).1 (prevYM (yrOfArg y) M).2, 0⟩ := by
  have hdiv : ((M : Int)) / 12 = 0 := by omega
  have hmod : ((M : Int)) % 12 = (M : Int) := by omega
  simp only [newDate, hdiv, hmod, add_zero]
  have hN : ((M : Int)).toNat = M := by omega
  rw [hN, show (0 : Int).natAbs + 2 = 0 + 2 from rfl, rollDays_zero]

theorem newDate_twelve_zero (y : Int) :
    newDate y 12 0 = ⟨yrOfArg y, 11, daysInMonth (yrOfArg y) 11, 0⟩ := by
  have hdiv : ((12 : Int)) / 12 = 1 := by decide
  have hmod : ((12 : Int)) % 12 = 0 := by decide
  simp only [newDate, hdiv, hmod]
  rw [show (0 : Int).natAbs + 2 = 0 + 2 from rfl, rollDays_zero]
  simp [prevYM]

/-! ### Day-number arithmetic: consecutive days across month and year ends -/

theorem yearStartDays_succ (y : Int) :
    yearStartDays (y + 1) =
      yearStartDays y + 365 + (if isLeapYear y = true then 1 else 0) := by
  have hleap : (if isLeapYear y = true then (1 : Int) else 0) =
      (if ((4 : Int) ∣ y ∧ ¬ (100 : Int) ∣ y) ∨ (400 : Int) ∣ y then (1 : Int) else 0) := by
    refine if_congr ?_ rfl rfl
    simp only [isLeapYear, Bool.or_eq_true, Bool.and_eq_true, beq_iff_eq, bne_iff_ne,
      Ne, Int.emod_emod_of_dvd]
    constructor
    · rintro (⟨ha, hb⟩ | hc)
      · exact Or.inl ⟨by omega, by omega⟩
      · exact Or.inr (by omega)
    · rintro (⟨ha, hb⟩ | hc)
      · exact Or.inl ⟨by omega, by omega⟩
      · exact Or.inr (by omega)
  rw [hleap]
  unfold yearStartDays
  split_ifs with h <;> omega

theorem monthStart_succ (m : Nat) (hm : m ≤ 10) (b : Bool) :
    monthStart (m + 1) b = monthStart m b + monthLen m b := by
  interval_cases m <;> cases b <;> decide

theorem dayNumber_next_month (y : Int) (m : Nat) (hm : m ≤ 10) :
    dayNumber y (m + 1) 1 = dayNumber y m (daysInMonth y m) + 1 := by
  unfold dayNumber daysInMonth
  rw [monthStart_succ m hm]
  push_cast
  ring

theorem dayNumber_next_year (y : Int) :
    dayNumber (y + 1) 0 1 = dayNumber y 11 31 + 1 := by
  have hys := yearStartDays_succ y
  unfold dayNumber
  cases hb : isLeapYear y <;> rw [hb] at hys <;>
    simp [monthStart, monthStartBase] at hys ⊢ <;> omega

theorem dayNumber_shift (y : Int) (m : Nat) (d e : Nat) :
    dayNumber y m d = dayNumber y m e + (d : Int) - (e : Int) := by
  unfold dayNumber
  ring

/-! ### Evaluating `succDay` -/

theorem succDay_in_month (Y : Int) (M : Nat) (d : Nat)
    (hd : d + 1 ≤ daysInMonth Y M) :
    succDay ⟨Y, M, d, 0⟩ = ⟨Y, M, d + 1, 0⟩ := by
  unfold succDay
  dsimp only
  rw [show (2 : Nat) = 1 + 1 from rfl,
    rollDays_valid 1 Y M ((d : Int) + 1) (by omega) (by omega)]
  all_goals congr 1
  all_goals omega

theorem succDay_month_end (Y : Int) (M : Nat) (hM : M ≤ 10) :
    succDay ⟨Y, M, daysInMonth Y M, 0⟩ = ⟨Y, M + 1, 1, 0⟩ := by
  unfold succDay
  dsimp only
  rw [show (2 : Nat) = 1 + 1 from rfl, rollDays]
  rw [if_neg (by omega), if_neg (by omega)]
  have hnext : nextYM Y M = (Y, M + 1) := by
    unfold nextYM
    rw [if_neg (by omega)]
  rw [hnext]
  have hb := daysInMonth_bounds Y (M + 1)
  rw [rollDays_valid 0 Y (M + 1) _ (by omega) (by omega)]
  congr 1
  omega

theorem succDay_year_end (Y : Int) :
    succDay ⟨Y, 11, 31, 0⟩ = ⟨Y + 1, 0, 1, 0⟩ := by
  have h31 : daysInMonth Y 11 = 31 := rfl
  unfold succDay
  dsimp only
  rw [show (2 : Nat) = 1 + 1 from rfl, rollDays]
  rw [if_neg (by omega), if_neg (by rw [h31]; omega)]
  have hnext : nextYM Y 11 = (Y + 1, 0) := by
    unfold nextYM
    rw [if_pos rfl]
  rw [hnext]
  have hb := daysInMonth_bounds (Y + 1) 0
  rw [rollDays_valid 0 (Y + 1) 0 _ (by omega) (by omega)]
  all_goals congr 1
  all_goals omega

/-! ### Structure of the grid: three runs of consecutive in-month days -/

theorem pMonthTS_le (m : Nat) (hm : m ≤ 11) : pMonthTS m ≤ 11 := by
  unfold pMonthTS
  split <;> omega

theorem nMonthTS_le (m : Nat) (hm : m ≤ 11) : nMonthTS m ≤ 11 := by
  unfold nMonthTS
  split <;> omega

theorem TimezoneService.getCalendarDays_eq (y : Int) (m : Nat) (hm : m ≤ 11) (t : JSDate) :
    TimezoneService.getCalendarDays y (m : Int) t =
      gridSeg (yrOfArg (pYearTS y m)) (pMonthTS m)
        (fun j => (dimPrev y m : Int) - ((fdowTS y m - 1 - j : Nat) : Int))
        (fdowTS y m) (pMonthTS m : Int) (pYearTS y m) false t
      ++ gridSeg (yrOfArg y) m (fun k => (k : Int) + 1) (dimCur y m) (m : Int) y true t
      ++ gridSeg (yrOfArg (nYearTS y m)) (nMonthTS m) (fun u => (u : Int) + 1)
        (42 - (fdowTS y m + dimCur y m)) (nMonthTS m : Int) (nYearTS y m) false t := by
  have hmb := daysInMonth_bounds (yrOfArg y) m
  have hpmb := daysInMonth_bounds (yrOfArg (pYearTS y m)) (pMonthTS m)
  have hnmb := daysInMonth_bounds (yrOfArg (nYearTS y m)) (nMonthTS m)
  have hpM := pMonthTS_le m hm
  have hnM := nMonthTS_le m hm
  have hfirst : newDate y (m : Int) 1 = ⟨yrOfArg y, m, 1, 0⟩ :=
    newDate_valid y m hm 1 (by omega) (by omega)
  have hfdow := getDay_lt (⟨yrOfArg y, m, 1, 0⟩ : JSDate)
  have hpYe : (if (m : Int) = 0 then y - 1 else y) = pYearTS y m := by
    unfold pYearTS
    by_cases h : m = 0
    · rw [if_pos (by omega), if_pos h]
    · rw [if_neg (by omega), if_neg h]
  have hpMe : (if (m : Int) = 0 then (11 : Int) else (m : Int) - 1) = (pMonthTS m : Int) := by
    unfold pMonthTS
    by_cases h : m = 0
    · rw [if_pos (by omega), if_pos h]
      decide
    · rw [if_neg (by omega), if_neg h]
      omega
  have hnYe : (if (m : Int) = 11 then y + 1 else y) = nYearTS y m := by
    unfold nYearTS
    by_cases h : m = 11
    · rw [if_pos (by omega), if_pos h]
    · rw [if_neg (by omega), if_neg h]
  have hnMe : (if (m : Int) = 11 then (0 : Int) else (m : Int) + 1) = (nMonthTS m : Int) := by
    unfold nMonthTS
    by_cases h : m = 11
    · rw [if_pos (by omega), if_pos h]
      decide
    · rw [if_neg (by omega), if_neg h]
      omega
  have hlast : getDate (newDate y ((m : Int) + 1) 0) = daysInMonth (yrOfArg y) m := by
    by_cases h11 : m = 11
    · subst h11
      rw [show ((11 : Nat) : Int) + 1 = 12 by decide, newDate_twelve_zero]
      rfl
    · have hp : prevYM (yrOfArg y) (m + 1) = (yrOfArg y, m) := by
        unfold prevYM
        rw [if_neg (by omega)]
        simp
      rw [show (m : Int) + 1 = ((m + 1 : Nat) : Int) by push_cast; ring,
        newDate_zero y (m + 1) (by omega), hp]
      rfl
  have hprevlast :
      getDate (newDate (pYearTS y m) ((pMonthTS m : Int) + 1) 0) =
        daysInMonth (yrOfArg (pYearTS y m)) (pMonthTS m) := by
    by_cases h0 : m = 0
    · subst h0
      rw [show ((pMonthTS 0 : Int)) + 1 = 12 by unfold pMonthTS; decide, newDate_twelve_zero]
      rfl
    · have hmm : pMonthTS m = m - 1 := by
        unfold pMonthTS
        rw [if_neg h0]
      have hp : prevYM (yrOfArg (pYearTS y m)) m = (yrOfArg (pYearTS y m), m - 1) := by
        unfold prevYM
        rw [if_neg h0]
      rw [hmm, show ((m - 1 : Nat) : Int) + 1 = ((m : Nat) : Int) by omega,
        newDate_zero (pYearTS y m) m hm, hp]
      rfl
  simp only [TimezoneService.getCalendarDays, gridSeg, fdowTS, dimCur, dimPrev,
    List.length_append, List.length_map, List.length_range]
  rw [hpYe, hpMe, hnYe, hnMe, hfirst, hlast, hprevlast]
  refine congrArg₂ (· ++ ·) (congrArg₂ (· ++ ·) ?_ ?_) ?_
  · refine List.map_congr_left (fun j hj => ?_)
    have hjF : j < getDay (⟨yrOfArg y, m, 1, 0⟩ : JSDate) := List.mem_range.mp hj
    rw [newDate_valid (pYearTS y m) (pMonthTS m) hpM _ (by omega) (by omega)]
  · refine List.map_congr_left (fun k hk => ?_)
    have hkC : k < daysInMonth (yrOfArg y) m := List.mem_range.mp hk
    rw [newDate_valid y m hm _ (by omega) (by omega)]
  · refine List.map_congr_left (fun u hu => ?_)
    have huT : u < 42 - (getDay (⟨yrOfArg y, m, 1, 0⟩ : JSDate) + daysInMonth (yrOfArg y) m) :=
      List.mem_range.mp hu
    rw [newDate_valid (nYearTS y m) (nMonthTS m) hnM _ (by omega) (by omega)]

/-! ### Chains of consecutive days -/

theorem chain'_map_range {α : Type} (f : Nat → α) (n : Nat) (R : α → α → Prop)
    (h : ∀ i, i + 1 < n → R (f i) (f (i + 1))) :
    List.Chain' R ((List.range n).map f) := by
  rw [List.chain'_map]
  cases n with
  | zero => simp
  | succ k =>
    rw [List.chain'_range_succ]
    intro i hi
    exact h i (by omega)

theorem head?_map_range_append {α : Type} (f : Nat → α) (n : Nat) (l : List α)
    (hn : 0 < n) : (((List.range n).map f) ++ l).head? = some (f 0) := by
  cases n with
  | zero => omega
  | succ k =>
    rw [List.range_succ_eq_map]
    simp

theorem head?_map_range {α : Type} (f : Nat → α) (n : Nat)
    (hn : 0 < n) : ((List.range n).map f).head? = some (f 0) := by
  cases n with
  | zero => omega
  | succ k =>
    rw [List.range_succ_eq_map]
    simp

theorem getLast?_map_range {α : Type} (f : Nat → α) (n : Nat)
    (hn : 0 < n) : ((List.range n).map f).getLast? = some (f (n - 1)) := by
  cases n with
  | zero => omega
  | succ k =>
    rw [List.range_succ, List.map_append]
    simp

theorem dayNumber_prev_junction (y : Int) (m : Nat) (hm : m ≤ 11) :
    dayNumber y m 1 =
      dayNumber (pYearTS y m) (pMonthTS m)
        (daysInMonth (pYearTS y m) (pMonthTS m)) + 1 := by
  by_cases h0 : m = 0
  · subst h0
    unfold pYearTS pMonthTS
    rw [if_pos rfl, if_pos rfl]
    have h31 : daysInMonth (y - 1) 11 = 31 := rfl
    rw [h31]
    have := dayNumber_next_year (y - 1)
    rw [show y - 1 + 1 = y by ring] at this
    exact this
  · unfold pYearTS pMonthTS
    rw [if_neg h0, if_neg h0]
    have := dayNumber_next_month y (m - 1) (by omega)
    rw [show m - 1 + 1 = m by omega] at this
    exact this

theorem dayNumber_next_junction (y : Int) (m : Nat) (hm : m ≤ 11) :
    dayNumber (nYearTS y m) (nMonthTS m) 1 =
      dayNumber y m (daysInMonth y m) + 1 := by
  by_cases h11 : m = 11
  · subst h11
    unfold nYearTS nMonthTS
    rw [if_pos rfl, if_pos rfl]
    have h31 : daysInMonth y 11 = 31 := rfl
    rw [h31]
    exact dayNumber_next_year y
  · unfold nYearTS nMonthTS
    rw [if_neg h11, if_neg h11]
    exact dayNumber_next_month y m (by omega)

theorem succDay_prev_junction (y : Int) (m : Nat) (hm : m ≤ 11) :
    succDay ⟨pYearTS y m, pMonthTS m, daysInMonth (pYearTS y m) (pMonthTS m), 0⟩ =
      ⟨y, m, 1, 0⟩ := by
  by_cases h0 : m = 0
  · subst h0
    unfold pYearTS pMonthTS
    rw [if_pos rfl, if_pos rfl]
    have h31 : daysInMonth (y - 1) 11 = 31 := rfl
    rw [h31, succDay_year_end (y - 1)]
    congr 1
    ring
  · unfold pYearTS pMonthTS
    rw [if_neg h0, if_neg h0]
    rw [succDay_month_end y (m - 1) (by omega)]
    congr 1
    omega

theorem succDay_next_junction (y : Int) (m : Nat) (hm : m ≤ 11) :
    succDay ⟨y, m, daysInMonth y m, 0⟩ = ⟨nYearTS y m, nMonthTS m, 1, 0⟩ := by
  by_cases h11 : m = 11
  · subst h11
    unfold nYearTS nMonthTS
    rw [if_pos rfl, if_pos rfl]
    have h31 : daysInMonth y 11 = 31 := rfl
    rw [h31]
    exact succDay_year_end y
  · unfold nYearTS nMonthTS
    rw [if_neg h11, if_neg h11]
    exact succDay_month_end y m (by omega)

theorem gridSeg_congr (Y : Int) (M : Nat) (f g : Nat → Int) (count : Nat)
    (fM fY : Int) (c : Bool) (t : JSDate)
    (h : ∀ i, i < count → f i = g i) :
    gridSeg Y M f count fM fY c t = gridSeg Y M g count fM fY c t := by
  unfold gridSeg
  refine List.map_congr_left (fun i hi => ?_)
  rw [h i (List.mem_range.mp hi)]

theorem chain'_gridSeg (Y : Int) (M : Nat) (base : Int) (count : Nat)
    (fM fY : Int) (c : Bool) (t : JSDate)
    (h1 : 1 ≤ base) (h2 : base + count ≤ (daysInMonth Y M : Int) + 1) :
    List.Chain' (fun a b => b.date = succDay a.date ∧ dayNum b.date = dayNum a.date + 1)
      (gridSeg Y M (fun i => base + (i : Int)) count fM fY c t) := by
  unfold gridSeg
  apply chain'_map_range
  intro i hi
  dsimp only [dayNum]
  constructor
  · rw [succDay_in_month Y M ((base + (i : Int)).toNat) (by omega)]
    congr 1
    omega
  · have hsh := dayNumber_shift Y M ((base + ((i + 1 : Nat) : Int)).toNat)
      ((base + (i : Int)).toNat)
    omega

/-- Claim C2, counterexample: at `(year, month) = (0, 0)` the dates are
not consecutive: the constructor's two-digit-year rule sends the current
month to January 1900 while the leading filler (built with year argument
`-1`) stays in December of the proleptic year -1, so entry 1 is not one
calendar day after entry 0. -/
theorem grid_dates_not_consecutive_at_year_zero :
    ¬ List.Chain' (fun a b => b.date = succDay a.date ∧ dayNum b.date = dayNum a.date + 1)
      (TimezoneService.getCalendarDays 0 0 (newDate 2024 0 15)) := by
  intro h
  have h2 := ((List.chain'_iff_get.mp h) 0 (by decide)).2
  exact absurd h2 (by decide)

/-- Claim C2, amended: for every month in 0–11 and every year `y` with
`y < -1` or `y > 100` (so that none of the constructor year arguments
`y-1`, `y`, `y+1` falls into the two-digit window 0–99 reinterpreted as
1900–1999), the 42 entries are strictly ordered by calendar date
ascending, each entry's date exactly one calendar day after its
predecessor (no gaps, no duplicates). -/
theorem grid_dates_strictly_consecutive (year month : Int) (today : JSDate)
    (hm0 : 0 ≤ month) (hm1 : month ≤ 11) (hy : year < -1 ∨ 100 < year) :
    List.Chain' (fun a b => b.date = succDay a.date ∧ dayNum b.date = dayNum a.date + 1)
      (TimezoneService.getCalendarDays year month today) := by
  obtain ⟨m, rfl⟩ : ∃ m : Nat, month = (m : Int) := ⟨month.toNat, by omega⟩
  have hm : m ≤ 11 := by exact_mod_cast hm1
  have hqy : yrOfArg year = year := by
    unfold yrOfArg
    rw [if_neg (by omega)]
  have hpcases : pYearTS year m = year - 1 ∨ pYearTS year m = year := by
    unfold pYearTS
    split
    · exact Or.inl rfl
    · exact Or.inr rfl
  have hncases : nYearTS year m = year + 1 ∨ nYearTS year m = year := by
    unfold nYearTS
    split
    · exact Or.inl rfl
    · exact Or.inr rfl
  have hqp : yrOfArg (pYearTS year m) = pYearTS year m := by
    unfold yrOfArg
    rcases hpcases with h | h <;> rw [h, if_neg (by omega)]
  have hqn : yrOfArg (nYearTS year m) = nYearTS year m := by
    unfold yrOfArg
    rcases hncases with h | h <;> rw [h, if_neg (by omega)]
  have hF7 : fdowTS year m < 7 := getDay_lt _
  have hL28 : 28 ≤ dimPrev year m := (daysInMonth_bounds _ _).1
  have hL31 : dimPrev year m ≤ 31 := (daysInMonth_bounds _ _).2
  have hC28 : 28 ≤ dimCur year m := (daysInMonth_bounds _ _).1
  have hC31 : dimCur year m ≤ 31 := (daysInMonth_bounds _ _).2
  have hLd : dimPrev year m = daysInMonth (pYearTS year m) (pMonthTS m) := by
    unfold dimPrev
    rw [hqp]
  have hCd : dimCur year m = daysInMonth year m := by
    unfold dimCur
    rw [hqy]
  have hnb := daysInMonth_bounds (nYearTS year m) (nMonthTS m)
  rw [TimezoneService.getCalendarDays_eq year m hm today, hqy, hqp, hqn]
  rw [gridSeg_congr (pYearTS year m) (pMonthTS m) _
      (fun j => ((dimPrev year m : Int) - (fdowTS year m : Int) + 1) + (j : Int))
      (fdowTS year m) (pMonthTS m : Int) (pYearTS year m) false today
      (fun j hj => by dsimp only; omega)]
  rw [gridSeg_congr year m _ (fun k => (1 : Int) + (k : Int))
      (dimCur year m) (m : Int) year true today (fun k hk => by dsimp only; omega)]
  rw [gridSeg_congr (nYearTS year m) (nMonthTS m) _ (fun u => (1 : Int) + (u : Int))
      (42 - (fdowTS year m + dimCur year m)) (nMonthTS m : Int) (nYearTS year m) false today
      (fun u hu => by dsimp only; omega)]
  rw [List.chain'_append, List.chain'_append]
  refine ⟨⟨?_, ?_, ?_⟩, ?_, ?_⟩
  · refine chain'_gridSeg _ _ _ _ _ _ _ _ ?_ ?_ <;> omega
  · refine chain'_gridSeg _ _ _ _ _ _ _ _ ?_ ?_ <;> omega
  · -- junction between the leading run and the current-month run
    intro x hx z hz
    by_cases hF0 : fdowTS year m = 0
    · unfold gridSeg at hx
      rw [hF0] at hx
      simp at hx
    · unfold gridSeg at hx hz
      rw [getLast?_map_range _ _ (by omega), Option.mem_def, Option.some.injEq] at hx
      rw [head?_map_range _ _ (by omega), Option.mem_def, Option.some.injEq] at hz
      subst hx
      subst hz
      dsimp only [dayNum]
      have hd1 : ((dimPrev year m : Int) - (fdowTS year m : Int) + 1 +
          ((fdowTS year m - 1 : Nat) : Int)).toNat =
          daysInMonth (pYearTS year m) (pMonthTS m) := by
        omega
      have hd2 : ((1 : Int) + ((0 : Nat) : Int)).toNat = 1 := by decide
      rw [hd1, hd2]
      exact ⟨(succDay_prev_junction year m hm).symm, dayNumber_prev_junction year m hm⟩
  · refine chain'_gridSeg _ _ _ _ _ _ _ _ ?_ ?_ <;> omega
  · -- junction between the current-month run and the trailing run
    intro x hx z hz
    rw [List.getLast?_append_of_ne_nil _ (by unfold gridSeg; simp; omega)] at hx
    unfold gridSeg at hx hz
    rw [getLast?_map_range _ _ (by omega), Option.mem_def, Option.some.injEq] at hx
    rw [head?_map_range _ _ (by omega), Option.mem_def, Option.some.injEq] at hz
    subst hx
    subst hz
    dsimp only [dayNum]
    have hd1 : ((1 : Int) + ((dimCur year m - 1 : Nat) : Int)).toNat = daysInMonth year m := by
      omega
    have hd2 : ((1 : Int) + ((0 : Nat) : Int)).toNat = 1 := by decide
    rw [hd1, hd2]
    exact ⟨(succDay_next_junction year m hm).symm, dayNumber_next_junction year m hm⟩

/-- Witness for the amended C2 at `(2024, 5)`. -/
theorem grid_dates_strictly_consecutive_witness :
    List.Chain' (fun a b => b.date = succDay a.date ∧ dayNum b.date = dayNum a.date + 1)
      (TimezoneService.getCalendarDays 2024 5 (newDate 2024 5 15)) :=
  grid_dates_strictly_consecutive 2024 5 (newDate 2024 5 15) (by decide) (by decide)
    (Or.inr (by decide))

/-- Claim C10, counterexample: at `(year, month) = (0, 0)` the grid does
not begin on a Sunday: the leading filler is December 31 of year -1
(a Friday, weekday 5), while the weekday alignment was computed from
January 1, 1900 (the two-digit-year reinterpretation of year 0). -/
theorem grid_first_entry_weekday_not_sunday_at_year_zero :
    ((TimezoneService.getCalendarDays 0 0 (newDate 2024 0 15)).map
      (fun e => e.dayOfWeek)).head? ≠ some (0 % 7) := by
  decide

/-- Claim C10, amended: for every month in 0–11 and every year `y` with
`y < -1` or `y > 100` (avoiding the constructor's two-digit-year window),
the entry at index `i` of the grid has `dayOfWeek = i mod 7`; in
particular the grid begins on a Sunday and forms six Sunday-to-Saturday
weeks. -/
theorem grid_weekday_equals_index_mod_7 (year month : Int) (today : JSDate)
    (hm0 : 0 ≤ month) (hm1 : month ≤ 11) (hy : year < -1 ∨ 100 < year) :
    ∀ (i : Nat) (hi : i < (TimezoneService.getCalendarDays year month today).length),
      ((TimezoneService.getCalendarDays year month today).get ⟨i, hi⟩).dayOfWeek = i % 7 := by
  obtain ⟨m, rfl⟩ : ∃ m : Nat, month = (m : Int) := ⟨month.toNat, by omega⟩
  have hm : m ≤ 11 := by exact_mod_cast hm1
  have hqy : yrOfArg year = year := by
    unfold yrOfArg
    rw [if_neg (by omega)]
  have hpcases : pYearTS year m = year - 1 ∨ pYearTS year m = year := by
    unfold pYearTS
    split
    · exact Or.inl rfl
    · exact Or.inr rfl
  have hncases : nYearTS year m = year + 1 ∨ nYearTS year m = year := by
    unfold nYearTS
    split
    · exact Or.inl rfl
    · exact Or.inr rfl
  have hqp : yrOfArg (pYearTS year m) = pYearTS year m := by
    unfold yrOfArg
    rcases hpcases with h | h <;> rw [h, if_neg (by omega)]
  have hqn : yrOfArg (nYearTS year m) = nYearTS year m := by
    unfold yrOfArg
    rcases hncases with h | h <;> rw [h, if_neg (by omega)]
  have hF7 : fdowTS year m < 7 := getDay_lt _
  have hL28 : 28 ≤ dimPrev year m := (daysInMonth_bounds _ _).1
  have hC28 : 28 ≤ dimCur year m := (daysInMonth_bounds _ _).1
  have hC31 : dimCur year m ≤ 31 := (daysInMonth_bounds _ _).2
  have hLd : dimPrev year m = daysInMonth (pYearTS year m) (pMonthTS m) := by
    unfold dimPrev
    rw [hqp]
  have hCd : dimCur year m = daysInMonth year m := by
    unfold dimCur
    rw [hqy]
  have hFint : ((fdowTS year m : Nat) : Int) = (dayNumber year m 1 + 6) % 7 := by
    unfold fdowTS getDay
    rw [hqy]
    dsimp only
    omega
  have hmap : (TimezoneService.getCalendarDays year (m : Int) today).map
      (fun e => e.dayOfWeek) = (List.range 42).map (fun i => i % 7) := by
    rw [TimezoneService.getCalendarDays_eq year m hm today, hqy, hqp, hqn]
    rw [gridSeg_congr (pYearTS year m) (pMonthTS m) _
        (fun j => ((dimPrev year m : Int) - (fdowTS year m : Int) + 1) + (j : Int))
        (fdowTS year m) (pMonthTS m : Int) (pYearTS year m) false today
        (fun j hj => by dsimp only; omega)]
    rw [gridSeg_congr year m _ (fun k => (1 : Int) + (k : Int))
        (dimCur year m) (m : Int) year true today (fun k hk => by dsimp only; omega)]
    rw [gridSeg_congr (nYearTS year m) (nMonthTS m) _ (fun u => (1 : Int) + (u : Int))
        (42 - (fdowTS year m + dimCur year m)) (nMonthTS m : Int) (nYearTS year m) false today
        (fun u hu => by dsimp only; omega)]
    conv_rhs => rw [show (42 : Nat) =
        (fdowTS year m + dimCur year m) + (42 - (fdowTS year m + dimCur year m)) by omega,
      List.range_add, List.map_append, List.range_add, List.map_append]
    simp only [gridSeg, List.map_append, List.map_map]
    refine congrArg₂ (· ++ ·) (congrArg₂ (· ++ ·) ?_ ?_) ?_
    · refine List.map_congr_left (fun j hj => ?_)
      have hjF : j < fdowTS year m := List.mem_range.mp hj
      simp only [Function.comp, getDay]
      have hsh := dayNumber_shift (pYearTS year m) (pMonthTS m)
        (((dimPrev year m : Int) - (fdowTS year m : Int) + 1 + (j : Int)).toNat)
        (daysInMonth (pYearTS year m) (pMonthTS m))
      have hjn := dayNumber_prev_junction year m hm
      omega
    · refine List.map_congr_left (fun k hk => ?_)
      have hkC : k < dimCur year m := List.mem_range.mp hk
      simp only [Function.comp, getDay]
      have hsh := dayNumber_shift year m (((1 : Int) + (k : Int)).toNat) 1
      omega
    · refine List.map_congr_left (fun u hu => ?_)
      have huT : u < 42 - (fdowTS year m + dimCur year m) := List.mem_range.mp hu
      simp only [Function.comp, getDay]
      have hsh := dayNumber_shift (nYearTS year m) (nMonthTS m)
        (((1 : Int) + (u : Int)).toNat) 1
      have hjn := dayNumber_next_junction year m hm
      have hsh2 := dayNumber_shift year m (daysInMonth year m) 1
      omega
  intro i hi
  have hlen := TimezoneService.length_getCalendarDays year (m : Int) today
  have h42 : i < 42 := by omega
  have h1 : ((TimezoneService.getCalendarDays year (m : Int) today).map
      (fun e => e.dayOfWeek))[i]? = ((List.range 42).map (fun i => i % 7))[i]? := by
    rw [hmap]
  rw [List.getElem?_map, List.getElem?_map, List.getElem?_eq_getElem hi,
    List.getElem?_eq_getElem (by simpa using h42)] at h1
  rw [List.get_eq_getElem]
  simpa using h1

/-- Witness for the amended C10 at `(2024, 0)`, index 0. -/
theorem grid_weekday_equals_index_mod_7_witness :
    ((TimezoneService.getCalendarDays 2024 0 (newDate 2024 0 15)).get
      ⟨0, by decide⟩).dayOfWeek = 0 % 7 :=
  grid_weekday_equals_index_mod_7 2024 0 (newDate 2024 0 15) (by decide) (by decide)
    (Or.inr (by decide)) 0 (by decide)

/-! ### The current-month run -/

theorem isLeapYear_eq_true_iff (y : Int) :
    isLeapYear y = true ↔ ((y % 4 = 0 ∧ y % 100 ≠ 0) ∨ y % 400 = 0) := by
  simp [isLeapYear, Bool.or_eq_true, Bool.and_eq_true, beq_iff_eq, bne_iff_ne]

theorem monthLen_indep (m : Nat) (hm : m ≤ 11) (hm1 : m ≠ 1) (b1 b2 : Bool) :
    monthLen m b1 = monthLen m b2 := by
  interval_cases m <;> first | omega | (cases b1 <;> cases b2 <;> rfl)

theorem daysInMonth_quirk (year : Int) (m : Nat) (hm : m ≤ 11)
    (hex : ¬(year = 0 ∧ m = 1)) :
    daysInMonth (yrOfArg year) m = daysInMonth year m := by
  unfold yrOfArg
  by_cases hq : 0 ≤ year ∧ year ≤ 99
  · rw [if_pos hq]
    by_cases hm1 : m = 1
    · subst hm1
      have hy1 : year ≠ 0 := fun h => hex ⟨h, rfl⟩
      unfold daysInMonth
      have hl : isLeapYear (1900 + year) = isLeapYear year := by
        rw [Bool.eq_iff_iff, isLeapYear_eq_true_iff, isLeapYear_eq_true_iff]
        omega
      rw [hl]
    · exact monthLen_indep m hm hm1 _ _
  · rw [if_neg hq]

theorem map_isCurrentMonth_gridSeg (Y : Int) (M : Nat) (dayOf : Nat → Int) (count : Nat)
    (fM fY : Int) (c : Bool) (t : JSDate) :
    (gridSeg Y M dayOf count fM fY c t).map (fun e => e.isCurrentMonth) =
      List.replicate count c := by
  unfold gridSeg
  rw [List.map_map]
  rw [List.eq_replicate_iff]
  constructor
  · simp
  · intro b hb
    rcases List.mem_map.mp hb with ⟨i, hi, rfl⟩
    rfl

/-- Claim C3, counterexample: at `(year, month) = (0, 1)` the
`isCurrentMonth = true` run has 28 entries (February of 1900, which the
constructor substitutes for year 0 and which is not a leap year), not the
29 days of February of year 0. -/
theorem current_month_run_length_wrong_at_year_zero :
    (TimezoneService.getCalendarDays 0 1 (newDate 2024 0 15)).countP
        (fun e => e.isCurrentMonth) ≠ daysInMonth 0 1 := by
  decide

/-- Claim C3, amended: for every month in 0–11 and every year, except the
single pair `(year, month) = (0, 1)` (where the two-digit-year rule swaps
leap February for common February), the `isCurrentMonth = true` entries
form exactly one contiguous run of length `daysInMonth year month`
(28–31), preceded and followed only by filler runs. -/
theorem current_month_run_contiguous (year month : Int) (today : JSDate)
    (hm0 : 0 ≤ month) (hm1 : month ≤ 11) (hex : ¬(year = 0 ∧ month = 1)) :
    ∃ l t, (TimezoneService.getCalendarDays year month today).map
          (fun e => e.isCurrentMonth) =
        List.replicate l false ++ List.replicate (daysInMonth year month.toNat) true ++
          List.replicate t false
      ∧ l + daysInMonth year month.toNat + t = 42
      ∧ 28 ≤ daysInMonth year month.toNat ∧ daysInMonth year month.toNat ≤ 31 := by
  obtain ⟨m, rfl⟩ : ∃ m : Nat, month = (m : Int) := ⟨month.toNat, by omega⟩
  have hm : m ≤ 11 := by exact_mod_cast hm1
  have htn : ((m : Int)).toNat = m := by omega
  rw [htn]
  have hex2 : ¬(year = 0 ∧ m = 1) := by
    rintro ⟨h1, h2⟩
    exact hex ⟨h1, by omega⟩
  have hdim : dimCur year m = daysInMonth year m := daysInMonth_quirk year m hm hex2
  have hF7 : fdowTS year m < 7 := getDay_lt _
  have hC28 : 28 ≤ dimCur year m := (daysInMonth_bounds _ _).1
  have hC31 : dimCur year m ≤ 31 := (daysInMonth_bounds _ _).2
  refine ⟨fdowTS year m, 42 - (fdowTS year m + dimCur year m), ?_, by omega, by omega, by omega⟩
  rw [TimezoneService.getCalendarDays_eq year m hm today]
  rw [List.map_append, List.map_append, map_isCurrentMonth_gridSeg,
    map_isCurrentMonth_gridSeg, map_isCurrentMonth_gridSeg, hdim]

/-- Witness for the amended C3 at `(2024, 1)` (leap-year February). -/
theorem current_month_run_contiguous_witness :
    ∃ l t, (TimezoneService.getCalendarDays 2024 1 (newDate 2024 0 15)).map
          (fun e => e.isCurrentMonth) =
        List.replicate l false ++ List.replicate (daysInMonth 2024 ((1 : Int)).toNat) true ++
          List.replicate t false
      ∧ l + daysInMonth 2024 ((1 : Int)).toNat + t = 42
      ∧ 28 ≤ daysInMonth 2024 ((1 : Int)).toNat ∧ daysInMonth 2024 ((1 : Int)).toNat ≤ 31 :=
  current_month_run_contiguous 2024 1 (newDate 2024 0 15) (by decide) (by decide)
    (by intro h; exact absurd h.1 (by decide))

/-! ### The today flag -/

theorem isSameDay_eq_true_iff (d1 d2 : JSDate) :
    TimezoneService.isSameDay d1 d2 = true ↔
      (d1.year = d2.year ∧ d1.month = d2.month ∧ d1.day = d2.day) := by
  simp [TimezoneService.isSameDay, getFullYear, getMonth, getDate,
    Bool.and_eq_true, beq_iff_eq, and_assoc]

theorem countP_le_one_of_forall_eq {α : Type} (l : List α) (p : α → Bool) (hl : l.Nodup)
    (hp : ∀ a ∈ l, ∀ b ∈ l, p a = true → p b = true → a = b) :
    l.countP p ≤ 1 := by
  induction l with
  | nil => simp
  | cons a l ih =>
    rw [List.countP_cons]
    rcases List.nodup_cons.mp hl with ⟨ha, hl2⟩
    by_cases hpa : p a = true
    · have hz : l.countP p = 0 := by
        rw [List.countP_eq_zero]
        intro b hb hpb
        have hba := hp b (List.mem_cons_of_mem a hb) a (List.mem_cons_self a l) hpb hpa
        rw [hba] at hb
        exact ha hb
      simp [hz, hpa]
    · have hz : (if p a then 1 else 0) = 0 := by simp [hpa]
      rw [hz, Nat.add_zero]
      exact ih hl2 (fun x hx y hy => hp x (List.mem_cons_of_mem a hx) y
        (List.mem_cons_of_mem a hy))

theorem countP_isToday_gridSeg (Y : Int) (M : Nat) (dayOf : Nat → Int) (count : Nat)
    (fM fY : Int) (c : Bool) (t : JSDate) :
    (gridSeg Y M dayOf count fM fY c t).countP (fun e => e.isToday) =
      (List.range count).countP
        (fun i => TimezoneService.isSameDay ⟨Y, M, (dayOf i).toNat, 0⟩ t) := by
  unfold gridSeg
  rw [List.countP_map]
  rfl

theorem gridSeg_isToday_iff (Y : Int) (M : Nat) (dayOf : Nat → Int) (count : Nat)
    (c : Bool) (t : JSDate) (e : CalendarDay)
    (he : e ∈ gridSeg Y M dayOf count (M : Int) Y c t)
    (hpos : ∀ i, i < count → 1 ≤ dayOf i) :
    (e.isToday = true ↔ (e.year = getFullYear t ∧ e.month = (getMonth t : Int) ∧
      e.day = (getDate t : Int))) := by
  unfold gridSeg at he
  rcases List.mem_map.mp he with ⟨i, hi, rfl⟩
  have hin := List.mem_range.mp hi
  have hd1 := hpos i hin
  dsimp only
  rw [isSameDay_eq_true_iff]
  dsimp only [getFullYear, getMonth, getDate]
  constructor
  · rintro ⟨h1, h2, h3⟩
    exact ⟨h1, by omega, by omega⟩
  · rintro ⟨h1, h2, h3⟩
    exact ⟨h1, by omega, by omega⟩

/-- Claim C4, counterexample: at `(year, month) = (0, 0)` with
`now = 1900-01-15`, the entry for January 15 (whose date really is
January 15, 1900, by the two-digit-year rule) has `isToday = true`, yet
its stored `(year, month, day)` fields are `(0, 0, 15)`, which differ
from `now`'s components `(1900, 0, 15)` — the biconditional of the claim
fails. -/
theorem isToday_iff_fails_at_year_zero :
    ((TimezoneService.getCalendarDays 0 0 (newDate 1900 0 15)).any
      (fun e => e.isToday &&
        !(e.year == getFullYear (newDate 1900 0 15) &&
          e.month == (getMonth (newDate 1900 0 15) : Int) &&
          e.day == (getDate (newDate 1900 0 15) : Int)))) = true := by
  decide

/-- Claim C4, amended: for every grid with month in 0–11 and every `now`
(the single ambient-clock reading used for the comparison), at most one
of the 42 entries has `isToday = true`; and for every year `y` with
`y < -1` or `y > 100` (avoiding the two-digit-year window, where the
stored fields and the actual date components coincide), an entry's
`isToday` is true exactly when its `(year, month, day)` fields equal the
`(year, month, day)` components of `now`. -/
theorem at_most_one_isToday (year month : Int) (now : JSDate)
    (hm0 : 0 ≤ month) (hm1 : month ≤ 11) :
    (TimezoneService.getCalendarDays year month now).countP (fun e => e.isToday) ≤ 1
    ∧ ((year < -1 ∨ 100 < year) →
        ∀ e ∈ TimezoneService.getCalendarDays year month now,
          (e.isToday = true ↔
            (e.year = getFullYear now ∧ e.month = (getMonth now : Int) ∧
              e.day = (getDate now : Int)))) := by
  obtain ⟨m, rfl⟩ : ∃ m : Nat, month = (m : Int) := ⟨month.toNat, by omega⟩
  have hm : m ≤ 11 := by exact_mod_cast hm1
  have hF7 : fdowTS year m < 7 := getDay_lt _
  have hL28 : 28 ≤ dimPrev year m := (daysInMonth_bounds _ _).1
  have hC28 : 28 ≤ dimCur year m := (daysInMonth_bounds _ _).1
  have hC31 : dimCur year m ≤ 31 := (daysInMonth_bounds _ _).2
  have hm12 : pMonthTS m ≠ m := by
    unfold pMonthTS
    split <;> omega
  have hm23 : m ≠ nMonthTS m := by
    unfold nMonthTS
    split <;> omega
  have hm13 : pMonthTS m ≠ nMonthTS m := by
    unfold pMonthTS nMonthTS
    split <;> split <;> omega
  have hseg_le : ∀ (Y : Int) (M : Nat) (base : Int) (n : Nat) (fM fY : Int) (c : Bool),
      1 ≤ base →
      (gridSeg Y M (fun i => base + (i : Int)) n fM fY c now).countP
        (fun e => e.isToday) ≤ 1 := by
    intro Y M base n fM fY c hb
    rw [countP_isToday_gridSeg]
    apply countP_le_one_of_forall_eq _ _ (List.nodup_range n)
    intro a ha b hb2 hpa hpb
    have ha2 := List.mem_range.mp ha
    have hb3 := List.mem_range.mp hb2
    have hda : (base + (a : Int)).toNat = now.day := ((isSameDay_eq_true_iff _ _).mp hpa).2.2
    have hdb : (base + (b : Int)).toNat = now.day := ((isSameDay_eq_true_iff _ _).mp hpb).2.2
    omega
  have hmonth : ∀ (Y : Int) (M : Nat) (dayOf : Nat → Int) (n : Nat) (fM fY : Int) (c : Bool),
      0 < (gridSeg Y M dayOf n fM fY c now).countP (fun e => e.isToday) →
      M = getMonth now := by
    intro Y M dayOf n fM fY c h
    rw [countP_isToday_gridSeg] at h
    rcases List.countP_pos_iff.mp h with ⟨i, hi, hp⟩
    exact ((isSameDay_eq_true_iff _ _).mp hp).2.1
  constructor
  · rw [TimezoneService.getCalendarDays_eq year m hm now]
    rw [gridSeg_congr (yrOfArg (pYearTS year m)) (pMonthTS m) _
        (fun j => ((dimPrev year m : Int) - (fdowTS year m : Int) + 1) + (j : Int))
        (fdowTS year m) (pMonthTS m : Int) (pYearTS year m) false now
        (fun j hj => by dsimp only; omega)]
    rw [gridSeg_congr (yrOfArg year) m _ (fun k => (1 : Int) + (k : Int))
        (dimCur year m) (m : Int) year true now (fun k hk => by dsimp only; omega)]
    rw [gridSeg_congr (yrOfArg (nYearTS year m)) (nMonthTS m) _
        (fun u => (1 : Int) + (u : Int))
        (42 - (fdowTS year m + dimCur year m)) (nMonthTS m : Int) (nYearTS year m) false now
        (fun u hu => by dsimp only; omega)]
    rw [List.countP_append, List.countP_append]
    have hle1 := hseg_le (yrOfArg (pYearTS year m)) (pMonthTS m)
      ((dimPrev year m : Int) - (fdowTS year m : Int) + 1) (fdowTS year m)
      (pMonthTS m : Int) (pYearTS year m) false (by omega)
    have hle2 := hseg_le (yrOfArg year) m 1 (dimCur year m) (m : Int) year true (by omega)
    have hle3 := hseg_le (yrOfArg (nYearTS year m)) (nMonthTS m) 1
      (42 - (fdowTS year m + dimCur year m)) (nMonthTS m : Int) (nYearTS year m) false
      (by omega)
    have k1 := hmonth (yrOfArg (pYearTS year m)) (pMonthTS m)
      (fun j => ((dimPrev year m : Int) - (fdowTS year m : Int) + 1) + (j : Int))
      (fdowTS year m) (pMonthTS m : Int) (pYearTS year m) false
    have k2 := hmonth (yrOfArg year) m (fun k => (1 : Int) + (k : Int))
      (dimCur year m) (m : Int) year true
    have k3 := hmonth (yrOfArg (nYearTS year m)) (nMonthTS m) (fun u => (1 : Int) + (u : Int))
      (42 - (fdowTS year m + dimCur year m)) (nMonthTS m : Int) (nYearTS year m) false
    by_cases h1 : 0 < (gridSeg (yrOfArg (pYearTS year m)) (pMonthTS m)
        (fun j => ((dimPrev year m : Int) - (fdowTS year m : Int) + 1) + (j : Int))
        (fdowTS year m) (pMonthTS m : Int) (pYearTS year m) false now).countP
        (fun e => e.isToday)
    · by_cases h2 : 0 < (gridSeg (yrOfArg year) m (fun k => (1 : Int) + (k : Int))
          (dimCur year m) (m : Int) year true now).countP (fun e => e.isToday)
      · exact absurd ((k1 h1).trans (k2 h2).symm) hm12
      · by_cases h3 : 0 < (gridSeg (yrOfArg (nYearTS year m)) (nMonthTS m)
            (fun u => (1 : Int) + (u : Int)) (42 - (fdowTS year m + dimCur year m))
            (nMonthTS m : Int) (nYearTS year m) false now).countP (fun e => e.isToday)
        · exact absurd ((k1 h1).trans (k3 h3).symm) hm13
        · omega
    · by_cases h2 : 0 < (gridSeg (yrOfArg year) m (fun k => (1 : Int) + (k : Int))
          (dimCur year m) (m : Int) year true now).countP (fun e => e.isToday)
      · by_cases h3 : 0 < (gridSeg (yrOfArg (nYearTS year m)) (nMonthTS m)
            (fun u => (1 : Int) + (u : Int)) (42 - (fdowTS year m + dimCur year m))
            (nMonthTS m : Int) (nYearTS year m) false now).countP (fun e => e.isToday)
        · exact absurd ((k2 h2).trans (k3 h3).symm) hm23
        · omega
      · omega
  · intro hy e he
    have hqy : yrOfArg year = year := by
      unfold yrOfArg
      rw [if_neg (by omega)]
    have hpcases : pYearTS year m = year - 1 ∨ pYearTS year m = year := by
      unfold pYearTS
      split
      · exact Or.inl rfl
      · exact Or.inr rfl
    have hncases : nYearTS year m = year + 1 ∨ nYearTS year m = year := by
      unfold nYearTS
      split
      · exact Or.inl rfl
      · exact Or.inr rfl
    have hqp : yrOfArg (pYearTS year m) = pYearTS year m := by
      unfold yrOfArg
      rcases hpcases with h | h <;> rw [h, if_neg (by omega)]
    have hqn : yrOfArg (nYearTS year m) = nYearTS year m := by
      unfold yrOfArg
      rcases hncases with h | h <;> rw [h, if_neg (by omega)]
    rw [TimezoneService.getCalendarDays_eq year m hm now, hqy, hqp, hqn] at he
    rcases List.mem_append.mp he with he2 | he3
    · rcases List.mem_append.mp he2 with heL | heC
      · exact gridSeg_isToday_iff (pYearTS year m) (pMonthTS m) _ (fdowTS year m)
          false now e heL (fun i hi => by omega)
      · exact gridSeg_isToday_iff year m _ (dimCur year m) true now e heC
          (fun i hi => by omega)
    · exact gridSeg_isToday_iff (nYearTS year m) (nMonthTS m) _
        (42 - (fdowTS year m + dimCur year m)) false now e he3 (fun i hi => by omega)

/-- Witness for the amended C4 at `(2024, 0)` with `now = 2024-01-15`. -/
theorem at_most_one_isToday_witness :
    (TimezoneService.getCalendarDays 2024 0 (newDate 2024 0 15)).countP
        (fun e => e.isToday) ≤ 1
    ∧ (((2024 : Int) < -1 ∨ 100 < (2024 : Int)) →
        ∀ e ∈ TimezoneService.getCalendarDays 2024 0 (newDate 2024 0 15),
          (e.isToday = true ↔
            (e.year = getFullYear (newDate 2024 0 15) ∧
              e.month = (getMonth (newDate 2024 0 15) : Int) ∧
              e.day = (getDate (newDate 2024 0 15) : Int)))) :=
  at_most_one_isToday 2024 0 (newDate 2024 0 15) (by decide) (by decide)
